import Mathlib

/-!
Verification of the HTTP transport and pagination core of a payment-API
client SDK (asaas-sdk).  The Python source is shallowly embedded:

* JSON values become the inductive `JVal`; Python dicts become ordered
  association lists `List (String × JVal)` with first-occurrence lookup,
  which matches unique-key `dict` semantics.
* `src/asaas/exceptions.py`: `raise_for_status` and the error taxonomy.
* `src/asaas/http_client.py`: `_clean_params`, body parsing, and the
  request outcome; the retry loop executed by the underlying HTTP stack
  is configured in `HttpClient.__init__` but implemented outside this
  repository, so the loop itself is modelled from the spec.
* `src/asaas/pagination.py`: `PaginatedResponse` and `paginate`, with the
  server represented by the finite transcript of raw page bodies that the
  successive GET requests receive.
* `src/asaas/client.py`: `Asaas.__init__` construction order, with the
  observable construction effects recorded as an event list.
-/

/-- JSON values.  Python `None` is `JVal.null`. -/
inductive JVal where
  | null
  | bool (b : Bool)
  | num (n : Int)
  | str (s : String)
  | arr (elems : List JVal)
  | obj (fields : List (String × JVal))

/-- Whether a JSON value is Python `None`. -/
def JVal.isNull : JVal → Bool
  | JVal.null => true
  | _ => false

/-- Lookup in an ordered association list, Python `d[k]` / `d.get(k)`. -/
def dictLookup : List (String × JVal) → String → Option JVal
  | [], _ => none
  | kv :: rest, k => if kv.1 = k then some kv.2 else dictLookup rest k

/-- Python `{**d, k: v}`: update the existing entry in place, else append. -/
def dictSet : List (String × JVal) → String → JVal → List (String × JVal)
  | [], k, v => [(k, v)]
  | kv :: rest, k, v => if kv.1 = k then (k, v) :: rest else kv :: dictSet rest k v

/-- Python `d.get(key, dflt)` on a parsed JSON body; a non-object body has
no keys, so the default is returned (mirrors `(body or {}).get(...)` for
`None`). -/
def jGet (v : JVal) (key : String) (dflt : JVal) : JVal :=
  match v with
  | JVal.obj fields => (dictLookup fields key).getD dflt
  | _ => dflt

/-- Embeds `_clean_params` of `http_client.py`: remove `None`-valued
entries from the query-parameter dict, pass `None` params through. -/
def _clean_params (params : Option (List (String × JVal))) :
    Option (List (String × JVal)) :=
  match params with
  | none => none
  | some d => some (d.filter (fun kv => !kv.2.isNull))

/-- The error classes of `exceptions.py` that `raise_for_status` can
raise, collapsed to their kind. -/
inductive ErrKind where
  | validation
  | authentication
  | notFound
  | rateLimit
  | api
deriving DecidableEq, Repr

/-- Embeds `AsaasAPIError` as raised by `raise_for_status`: kind (the
concrete class), message, HTTP status and the raw sub-error list. -/
structure AsaasAPIError where
  kind : ErrKind
  message : String
  status_code : Option Nat
  errors : List JVal

/-- Embeds `_STATUS_CODE_MAP.get(status_code, AsaasAPIError)`. -/
def statusCodeMap (status : Nat) : ErrKind :=
  if status = 400 then ErrKind.validation
  else if status = 401 then ErrKind.authentication
  else if status = 404 then ErrKind.notFound
  else if status = 429 then ErrKind.rateLimit
  else ErrKind.api

/-- The `errors` list extracted from a response body,
`(body or {}).get("errors", [])`.  A present non-list value is out of the
modelled domain (Python would fail iterating it) and is mapped to `[]`. -/
def subErrorsOf (body : JVal) : List JVal :=
  match jGet body "errors" (JVal.arr []) with
  | JVal.arr es => es
  | _ => []

/-- Rendering used inside the error message f-string; only scalar values
are given a faithful Python `str` rendering, which is all the message
formatting of `exceptions.py` relies on in the modelled domain. -/
def jStr : JVal → String
  | JVal.null => "None"
  | JVal.bool b => if b then "True" else "False"
  | JVal.num n => toString n
  | JVal.str s => s
  | JVal.arr _ => "<list>"
  | JVal.obj _ => "<dict>"

/-- One line of the joined error message, from one sub-error entry. -/
def subErrorLine (e : JVal) : String :=
  "[" ++ jStr (jGet e "code" (JVal.str "unknown")) ++ "] "
    ++ jStr (jGet e "description" (JVal.str ""))

/-- Embeds `raise_for_status` of `exceptions.py`: 2xx returns normally,
anything else raises the class selected by `_STATUS_CODE_MAP` carrying
the status and the body's sub-error list. -/
def raise_for_status (status_code : Nat) (body : JVal) :
    Except AsaasAPIError Unit :=
  if 200 ≤ status_code ∧ status_code < 300 then Except.ok ()
  else
    let errors := subErrorsOf body
    let message :=
      if errors.isEmpty then "HTTP " ++ toString status_code
      else String.intercalate "; " (errors.map subErrorLine)
    Except.error ⟨statusCodeMap status_code, message, some status_code, errors⟩

/-- The error record `raise_for_status` raises for a given status and
body. -/
def classifiedError (status : Nat) (body : JVal) : AsaasAPIError :=
  ⟨statusCodeMap status,
    (if (subErrorsOf body).isEmpty then "HTTP " ++ toString status
     else String.intercalate "; " ((subErrorsOf body).map subErrorLine)),
    some status, subErrorsOf body⟩

/-- The raw content of an HTTP response body as the transport sees it:
absent, parseable JSON, or non-empty text that fails JSON parsing. -/
inductive Content where
  | empty
  | jsonOk (v : JVal)
  | jsonBad (text : String)

/-- Embeds the body handling of `HttpClient.request`: `body = {}` when
there is no content, the parsed JSON when parsing succeeds, and
`{"raw": response.text}` when parsing fails. -/
def parseBody : Content → JVal
  | Content.empty => JVal.obj []
  | Content.jsonOk v => v
  | Content.jsonBad t => JVal.obj [("raw", JVal.str t)]

/-- One HTTP response as produced by the server. -/
structure HResp where
  status : Nat
  content : Content

/-- The `status_forcelist` configured in `HttpClient.__init__`. -/
def statusForcelist : List Nat := [500, 502, 503, 504]

/-- The `allowed_methods` configured in `HttpClient.__init__`. -/
def allowedMethods : List String := ["GET", "PUT", "DELETE", "HEAD", "OPTIONS"]

/-- Modelled from the spec: the retry loop that the underlying HTTP stack
runs with the strategy configured in `HttpClient.__init__` (the loop
itself lives outside this repository).  The server's successive responses
to the repeated attempts form the transcript; a response is retried only
when the method is in `allowedMethods`, the status is in
`statusForcelist`, and retry budget remains, and a request that exhausts
its retries surfaces the last received response.  Backoff timing is not
modelled. -/
def fetchWithRetry (method : String) (budget : Nat) :
    List HResp → Option HResp
  | [] => none
  | r :: rest =>
    if method ∈ allowedMethods ∧ r.status ∈ statusForcelist ∧ budget ≠ 0 then
      fetchWithRetry method (budget - 1) rest
    else some r

/-- Embeds `HttpClient.request` over a response transcript: the response
that survives the retry loop has its body parsed and is then classified
by `raise_for_status`; a 2xx returns the parsed body. -/
def requestOutcome (method : String) (max_retries : Nat)
    (transcript : List HResp) : Option (Except AsaasAPIError JVal) :=
  (fetchWithRetry method max_retries transcript).map (fun r =>
    let body := parseBody r.content
    match raise_for_status r.status body with
    | Except.ok _ => Except.ok body
    | Except.error e => Except.error e)

/-- A raw paginated-list JSON body; `none` models an omitted field. -/
structure RawPage where
  hasMore : Option Bool
  totalCount : Option Int
  limit : Option Int
  offset : Option Int
  data : Option (List JVal)

/-- Embeds the page view of `pagination.py`. -/
structure PaginatedResponse where
  has_more : Bool
  total_count : Int
  limit : Int
  offset : Int
  data : List JVal

/-- Embeds `PaginatedResponse.__init__`: each field falls back to its
`raw.get(..., default)` default when the server omits it. -/
def PaginatedResponse.ofRaw (raw : RawPage) : PaginatedResponse :=
  { has_more := raw.hasMore.getD false
    total_count := raw.totalCount.getD 0
    limit := raw.limit.getD 10
    offset := raw.offset.getD 0
    data := raw.data.getD [] }

/-- The query dict of one page request,
`{**base_params, "offset": offset, "limit": limit}`. -/
def pageParams (base : List (String × JVal)) (offset limit : Int) :
    List (String × JVal) :=
  dictSet (dictSet base "offset" (JVal.num offset)) "limit" (JVal.num limit)

/-- Embeds the single-page fetch step of `paginate` (and the wrapping done
by `Resource._list`): given the raw body the server answers with, it
returns the one GET request issued — offset and limit merged into the base
params — together with the wrapped page. -/
def fetch_page (raw : RawPage) (base : List (String × JVal))
    (offset limit : Int) : List (String × JVal) × PaginatedResponse :=
  (pageParams base offset limit, PaginatedResponse.ofRaw raw)

/-- Python `max_items is not None and yielded >= max_items`. -/
def reachedMax (max_items : Option Int) (yielded : Int) : Bool :=
  match max_items with
  | none => false
  | some m => yielded ≥ m

/-- Embeds the `for item in page.data` loop of `paginate`: yields the
items one by one, incrementing `yielded` and returning from the generator
as soon as `reachedMax` holds after a yield.  Result: items yielded from
this page, the updated `yielded` counter, and whether the generator
returned mid-loop. -/
def yieldFromPage (max_items : Option Int) :
    List JVal → Int → List JVal × Int × Bool
  | [], yielded => ([], yielded, false)
  | x :: xs, yielded =>
    if reachedMax max_items (yielded + 1) then ([x], yielded + 1, true)
    else
      let out := yieldFromPage max_items xs (yielded + 1)
      (x :: out.1, out.2.1, out.2.2)

/-- What one run of the `paginate` generator produced: the yielded items
and the query dict of every page request it issued, in order. -/
structure PaginateRun where
  items : List JVal
  requests : List (List (String × JVal))

/-- Embeds the `while True` loop of `paginate` over the transcript of raw
page bodies the successive GETs receive (an exhausted transcript ends the
run with no further request recorded). -/
def paginateAux (max_items : Option Int) (base : List (String × JVal))
    (limit : Int) : List RawPage → Int → Int → PaginateRun
  | [], _, _ => ⟨[], []⟩
  | raw :: rest, offset, yielded =>
    let fp := fetch_page raw base offset limit
    let page := fp.2
    let out := yieldFromPage max_items page.data yielded
    if out.2.2 then ⟨out.1, [fp.1]⟩
    else if page.has_more then
      let next :=
        paginateAux max_items base limit rest (offset + page.limit) out.2.1
      ⟨out.1 ++ next.items, fp.1 :: next.requests⟩
    else ⟨out.1, [fp.1]⟩

/-- A `paginate` run together with the caller's `params` object as it
stands after the run (the code copies it via `dict(params or {})` and
never writes through the original reference). -/
structure PaginateResult where
  items : List JVal
  requests : List (List (String × JVal))
  final_params : Option (List (String × JVal))

/-- Embeds `paginate` of `pagination.py`: `offset` and `yielded` start at
0 and `base_params` is a copy of the caller's params. -/
def paginate (transcript : List RawPage)
    (params : Option (List (String × JVal))) (limit : Int)
    (max_items : Option Int) : PaginateResult :=
  let base := params.getD []
  let run := paginateAux max_items base limit transcript 0 0
  ⟨run.items, run.requests, params⟩

/-- Observable effects of client construction. -/
inductive InitEvent where
  | sessionCreated
  | requestIssued (method : String) (path : String)
deriving DecidableEq, Repr

/-- `PRODUCTION_URL` of `http_client.py`. -/
def PRODUCTION_URL : String := "https://api.asaas.com"

/-- `SANDBOX_URL` of `http_client.py`. -/
def SANDBOX_URL : String := "https://sandbox.asaas.com/api"

/-- Python `base_url.rstrip("/")`. -/
def rstripSlash (s : String) : String :=
  String.mk ((s.data.reverse.dropWhile (fun c => c = '/')).reverse)

/-- The configuration state `HttpClient.__init__` stores (the float
backoff factor is configuration passed straight to the retry strategy and
is not needed by any claim). -/
structure HttpClientModel where
  api_key : String
  base_url : String
  timeout : Int
  max_retries : Nat

/-- Embeds `HttpClient.__init__`: builds the configuration, creates the
session (recorded as an event) and issues no request. -/
def HttpClient.mkClient (api_key : String) (base_url : String)
    (timeout : Int) (max_retries : Nat) : HttpClientModel × List InitEvent :=
  (⟨api_key, rstripSlash base_url, timeout, max_retries⟩,
    [InitEvent.sessionCreated])

/-- The client state `Asaas.__init__` builds (the resource attributes are
plain wrappers around the same transport and are out of scope). -/
structure AsaasClientModel where
  http : HttpClientModel

/-- Embeds `Asaas.__init__`: an empty (falsy) api_key raises `ValueError`
before the `HttpClient` — and hence the HTTP session — is created;
otherwise the base URL is resolved (a falsy override is ignored) and the
transport is constructed. -/
def Asaas.mkAsaas (api_key : String) (sandbox : Bool)
    (base_url : Option String) (timeout : Int) (max_retries : Nat) :
    Except String AsaasClientModel × List InitEvent :=
  if api_key = "" then (Except.error "api_key is required", [])
  else
    let fallback := if sandbox then SANDBOX_URL else PRODUCTION_URL
    let resolved :=
      match base_url with
      | some u => if u = "" then fallback else u
      | none => fallback
    let built := HttpClient.mkClient api_key resolved timeout max_retries
    (Except.ok ⟨built.1⟩, built.2)

theorem JVal.not_isNull_iff (v : JVal) : (!v.isNull) = true ↔ v ≠ JVal.null := by
  cases v <;> simp [JVal.isNull]

/-- C6: every key whose value is absent/null is omitted from the outgoing
query string, every present value is passed through unaltered and in
order, and explicitly falsy values (`false`, `0`, `""`) are retained. -/
theorem clean_params_spec :
    _clean_params none = none ∧
    (∀ d : List (String × JVal),
      ∃ d', _clean_params (some d) = some d' ∧
        d'.Sublist d ∧
        ∀ kv : String × JVal, kv ∈ d' ↔ kv ∈ d ∧ kv.2 ≠ JVal.null) ∧
    _clean_params (some [("a", JVal.bool false), ("b", JVal.num 0),
        ("c", JVal.str ""), ("d", JVal.null)]) =
      some [("a", JVal.bool false), ("b", JVal.num 0), ("c", JVal.str "")] := by
  refine ⟨rfl, ?_, rfl⟩
  intro d
  refine ⟨d.filter (fun kv => !kv.2.isNull), rfl, List.filter_sublist _, ?_⟩
  intro kv
  rw [List.mem_filter]
  exact and_congr_right (fun _ => JVal.not_isNull_iff kv.2)

/-- C3: a non-2xx status raises the typed error selected by status
(400 validation, 401 authentication, 404 not-found, 429 rate-limit,
otherwise generic API error), carrying the status code and the body's
ordered sub-error list; a 2xx status raises nothing. -/
theorem raise_for_status_spec (status : Nat) (body : JVal) :
    (200 ≤ status ∧ status < 300 →
      raise_for_status status body = Except.ok ()) ∧
    (¬ (200 ≤ status ∧ status < 300) →
      ∃ e : AsaasAPIError,
        raise_for_status status body = Except.error e ∧
        e.status_code = some status ∧
        e.errors = subErrorsOf body ∧
        e.kind =
          (if status = 400 then ErrKind.validation
           else if status = 401 then ErrKind.authentication
           else if status = 404 then ErrKind.notFound
           else if status = 429 then ErrKind.rateLimit
           else ErrKind.api)) := by
  constructor
  · intro h
    simp [raise_for_status, h]
  · intro h
    unfold raise_for_status
    rw [if_neg h]
    exact ⟨_, rfl, rfl, rfl, rfl⟩

/-- Closed instance of `raise_for_status_spec` at status 404 with a body
carrying one sub-error. -/
theorem raise_for_status_spec_witness :
    ∃ e : AsaasAPIError,
      raise_for_status 404
          (JVal.obj [("errors", JVal.arr [JVal.obj
            [("code", JVal.str "not_found"), ("description", JVal.str "x")]])]) =
        Except.error e ∧
      e.status_code = some 404 ∧
      e.errors = [JVal.obj
        [("code", JVal.str "not_found"), ("description", JVal.str "x")]] ∧
      e.kind = ErrKind.notFound := by
  have h := (raise_for_status_spec 404
    (JVal.obj [("errors", JVal.arr [JVal.obj
      [("code", JVal.str "not_found"), ("description", JVal.str "x")]])])).2
    (by decide)
  simpa [subErrorsOf, jGet, dictLookup] using h

/-- C9: constructing the client with an empty api_key fails with the
`ValueError` before any HTTP session is created (no construction event at
all); any non-empty api_key constructs successfully, creating the session
and issuing no request. -/
theorem asaas_init_spec (api_key : String) (sandbox : Bool)
    (base_url : Option String) (timeout : Int) (max_retries : Nat) :
    (api_key = "" →
      Asaas.mkAsaas api_key sandbox base_url timeout max_retries =
        (Except.error "api_key is required", [])) ∧
    (api_key ≠ "" →
      ∃ c : AsaasClientModel,
        Asaas.mkAsaas api_key sandbox base_url timeout max_retries =
          (Except.ok c, [InitEvent.sessionCreated]) ∧
        c.http.api_key = api_key ∧
        ∀ m p, InitEvent.requestIssued m p ∉
          ([InitEvent.sessionCreated] : List InitEvent)) := by
  constructor
  · intro h
    simp [Asaas.mkAsaas, h]
  · intro h
    unfold Asaas.mkAsaas HttpClient.mkClient
    rw [if_neg h]
    exact ⟨_, rfl, rfl, by intro m p; simp⟩

/-- Closed instance of `asaas_init_spec` for both the empty and a
non-empty api_key. -/
theorem asaas_init_spec_witness :
    Asaas.mkAsaas "" false none 30 3 = (Except.error "api_key is required", []) ∧
    ∃ c : AsaasClientModel,
      Asaas.mkAsaas "k" true none 30 3 =
        (Except.ok c, [InitEvent.sessionCreated]) ∧
      c.http.api_key = "k" ∧
      ∀ m p, InitEvent.requestIssued m p ∉
        ([InitEvent.sessionCreated] : List InitEvent) := by
  exact ⟨(asaas_init_spec "" false none 30 3).1 rfl,
    (asaas_init_spec "k" true none 30 3).2 (by decide)⟩

theorem fetchWithRetry_cons (method : String) (budget : Nat) (r : HResp)
    (rest : List HResp) :
    fetchWithRetry method budget (r :: rest) =
      if method ∈ allowedMethods ∧ r.status ∈ statusForcelist ∧ budget ≠ 0
      then fetchWithRetry method (budget - 1) rest
      else some r := rfl

theorem raise_for_status_err (status : Nat) (body : JVal)
    (h : ¬ (200 ≤ status ∧ status < 300)) :
    raise_for_status status body = Except.error (classifiedError status body) := by
  unfold raise_for_status classifiedError
  rw [if_neg h]

theorem fetchWithRetry_recover (method : String) (cbad cgood : Content)
    (hm : method ∈ allowedMethods) :
    ∀ (k n : Nat), k ≤ n →
      fetchWithRetry method n
          (List.replicate k ⟨503, cbad⟩ ++ [⟨200, cgood⟩]) =
        some ⟨200, cgood⟩ := by
  intro k
  induction k with
  | zero =>
    intro n _
    rw [List.replicate_zero, List.nil_append, fetchWithRetry_cons, if_neg]
    intro hc
    have h200 : (200 : Nat) ∈ statusForcelist := hc.2.1
    exact absurd h200 (by decide)
  | succ k ih =>
    intro n hk
    rw [List.replicate_succ, List.cons_append, fetchWithRetry_cons,
      if_pos ⟨hm, show (503 : Nat) ∈ statusForcelist from by decide, by omega⟩]
    exact ih (n - 1) (by omega)

theorem fetchWithRetry_exhaust (method : String)
    (hm : method ∈ allowedMethods) :
    ∀ (rs : List HResp) (n : Nat),
      (∀ r ∈ rs, r.status ∈ statusForcelist) →
      rs.length = n + 1 →
      fetchWithRetry method n rs = rs.getLast? := by
  intro rs
  induction rs with
  | nil => intro n _ hlen; simp at hlen
  | cons r rest ih =>
    intro n hall hlen
    rw [fetchWithRetry_cons]
    cases rest with
    | nil =>
      have hn : n = 0 := by simpa using hlen
      subst hn
      rw [if_neg (fun hc => hc.2.2 rfl)]
      rfl
    | cons r2 rest2 =>
      have hn : n ≠ 0 := by
        simp only [List.length_cons] at hlen
        omega
      rw [if_pos ⟨hm, hall r (by simp), hn⟩,
        ih (n - 1) (fun x hx => hall x (List.mem_cons_of_mem r hx)) (by
          simp only [List.length_cons] at hlen ⊢
          omega),
        List.getLast?_cons_cons]

/-- C7: a 2xx response never raises and returns the parsed body: an empty
body yields the empty object, parseable JSON yields the parsed value, and
a non-empty unparseable body is wrapped as a raw-text object. -/
theorem request_2xx_spec (method : String) (n : Nat) (status : Nat)
    (c : Content) (h : 200 ≤ status ∧ status < 300) :
    requestOutcome method n [⟨status, c⟩] = some (Except.ok (parseBody c)) ∧
    parseBody Content.empty = JVal.obj [] ∧
    (∀ v, parseBody (Content.jsonOk v) = v) ∧
    (∀ t, parseBody (Content.jsonBad t) = JVal.obj [("raw", JVal.str t)]) := by
  refine ⟨?_, rfl, fun v => rfl, fun t => rfl⟩
  have hf : status ∉ statusForcelist := by
    intro hmem
    simp only [statusForcelist, List.mem_cons, List.not_mem_nil, or_false]
      at hmem
    omega
  unfold requestOutcome
  rw [fetchWithRetry_cons, if_neg (fun hc => hf hc.2.1)]
  simp [raise_for_status, h]

/-- Closed instance of `request_2xx_spec`: a 200 with an unparseable body
and a 201 with an empty body. -/
theorem request_2xx_spec_witness :
    requestOutcome "GET" 3 [⟨200, Content.jsonBad "oops"⟩] =
      some (Except.ok (JVal.obj [("raw", JVal.str "oops")])) ∧
    requestOutcome "POST" 3 [⟨201, Content.empty⟩] =
      some (Except.ok (JVal.obj [])) :=
  ⟨(request_2xx_spec "GET" 3 200 (Content.jsonBad "oops") (by omega)).1,
    (request_2xx_spec "POST" 3 201 Content.empty (by omega)).1⟩

theorem raise_for_status_ok (status : Nat) (body : JVal)
    (h : 200 ≤ status ∧ status < 300) :
    raise_for_status status body = Except.ok () := by
  unfold raise_for_status
  rw [if_pos h]

/-- C4: retries happen only for methods in the configured allowed set
(never POST) and only for statuses in the configured server-error set; a
POST receiving a 503 surfaces the error immediately with no retry, while
an allowed method receiving up to the retry budget of 503s followed by a
200 ultimately returns the 200 body. -/
theorem retry_policy_spec :
    statusForcelist = [500, 502, 503, 504] ∧
    allowedMethods = ["GET", "PUT", "DELETE", "HEAD", "OPTIONS"] ∧
    "POST" ∉ allowedMethods ∧
    (∀ (method : String) (n : Nat) (r : HResp) (rest : List HResp),
      method ∉ allowedMethods ∨ r.status ∉ statusForcelist →
      requestOutcome method n (r :: rest) = requestOutcome method n [r]) ∧
    (∀ (n : Nat) (c : Content) (rest : List HResp),
      ∃ e : AsaasAPIError,
        requestOutcome "POST" n (⟨503, c⟩ :: rest) =
          some (Except.error e) ∧
        requestOutcome "POST" n (⟨503, c⟩ :: rest) =
          requestOutcome "POST" n [⟨503, c⟩] ∧
        e.status_code = some 503 ∧
        e.kind = ErrKind.api) ∧
    (∀ (method : String) (n k : Nat) (cbad cgood : Content),
      method ∈ allowedMethods → k ≤ n →
      requestOutcome method n
          (List.replicate k ⟨503, cbad⟩ ++ [⟨200, cgood⟩]) =
        some (Except.ok (parseBody cgood))) := by
  refine ⟨rfl, rfl, by decide, ?_, ?_, ?_⟩
  · intro method n r rest h
    have hc : ¬(method ∈ allowedMethods ∧ r.status ∈ statusForcelist ∧ n ≠ 0) := by
      intro hcon
      rcases h with h | h
      · exact h hcon.1
      · exact h hcon.2.1
    unfold requestOutcome
    rw [fetchWithRetry_cons, if_neg hc, fetchWithRetry_cons, if_neg hc]
  · intro n c rest
    have hc : ¬(("POST" : String) ∈ allowedMethods ∧
        (HResp.mk 503 c).status ∈ statusForcelist ∧ n ≠ 0) := by
      intro hcon
      have : ("POST" : String) ∈ allowedMethods := hcon.1
      exact absurd this (by decide)
    refine ⟨classifiedError 503 (parseBody c), ?_, ?_, rfl, ?_⟩
    · unfold requestOutcome
      rw [fetchWithRetry_cons, if_neg hc]
      simp [raise_for_status_err 503 (parseBody c) (by omega)]
    · unfold requestOutcome
      rw [fetchWithRetry_cons, if_neg hc, fetchWithRetry_cons, if_neg hc]
    · simp [classifiedError, statusCodeMap]
  · intro method n k cbad cgood hm hk
    unfold requestOutcome
    rw [fetchWithRetry_recover method cbad cgood hm k n hk]
    simp [raise_for_status_ok 200 (parseBody cgood) (by omega)]

/-- Closed instances of `retry_policy_spec`: a non-retriable POST, the
POST-503 immediate error, and a GET recovering after two 503s. -/
theorem retry_policy_spec_witness :
    requestOutcome "POST" 1 [⟨503, Content.empty⟩, ⟨200, Content.empty⟩] =
      requestOutcome "POST" 1 [⟨503, Content.empty⟩] ∧
    (∃ e : AsaasAPIError,
      requestOutcome "POST" 3 [⟨503, Content.empty⟩, ⟨200, Content.empty⟩] =
        some (Except.error e) ∧
      requestOutcome "POST" 3 [⟨503, Content.empty⟩, ⟨200, Content.empty⟩] =
        requestOutcome "POST" 3 [⟨503, Content.empty⟩] ∧
      e.status_code = some 503 ∧
      e.kind = ErrKind.api) ∧
    requestOutcome "GET" 3
        (List.replicate 2 ⟨503, Content.empty⟩ ++
          [⟨200, Content.jsonOk (JVal.num 7)⟩]) =
      some (Except.ok (JVal.num 7)) := by
  refine ⟨?_, ?_, ?_⟩
  · exact retry_policy_spec.2.2.2.1 "POST" 1 ⟨503, Content.empty⟩
      [⟨200, Content.empty⟩] (Or.inl (by decide))
  · exact retry_policy_spec.2.2.2.2.1 3 Content.empty [⟨200, Content.empty⟩]
  · exact retry_policy_spec.2.2.2.2.2 "GET" 3 2 Content.empty
      (Content.jsonOk (JVal.num 7)) (by decide) (by omega)

/-- C5: when the retry budget is exhausted by retriable server-error
responses, the surfaced error is the typed error classified from the last
received response, carrying that response's status and sub-errors. -/
theorem retry_exhaustion_spec (method : String) (n : Nat) (rs : List HResp)
    (hm : method ∈ allowedMethods)
    (hall : ∀ r ∈ rs, r.status ∈ statusForcelist)
    (hlen : rs.length = n + 1) :
    ∃ (last : HResp) (e : AsaasAPIError),
      rs.getLast? = some last ∧
      requestOutcome method n rs = some (Except.error e) ∧
      e.status_code = some last.status ∧
      e.kind = ErrKind.api ∧
      e.errors = subErrorsOf (parseBody last.content) := by
  have hne : rs ≠ [] := by
    intro h
    rw [h] at hlen
    simp at hlen
  have hlast := List.getLast?_eq_getLast_of_ne_nil hne
  have hmem : rs.getLast hne ∈ rs := List.getLast_mem hne
  have hstat : (rs.getLast hne).status ∈ statusForcelist :=
    hall (rs.getLast hne) hmem
  have hstat' : (rs.getLast hne).status = 500 ∨ (rs.getLast hne).status = 502 ∨
      (rs.getLast hne).status = 503 ∨ (rs.getLast hne).status = 504 := by
    simpa only [statusForcelist, List.mem_cons, List.not_mem_nil, or_false]
      using hstat
  have hn2xx : ¬(200 ≤ (rs.getLast hne).status ∧ (rs.getLast hne).status < 300) := by
    intro hcon
    rcases hstat' with h | h | h | h <;> omega
  refine ⟨rs.getLast hne,
    classifiedError (rs.getLast hne).status (parseBody (rs.getLast hne).content),
    hlast, ?_, rfl, ?_, rfl⟩
  · unfold requestOutcome
    rw [fetchWithRetry_exhaust method hm rs n hall hlen, hlast]
    simp [raise_for_status_err (rs.getLast hne).status
      (parseBody (rs.getLast hne).content) hn2xx]
  · simp only [classifiedError, statusCodeMap]
    rcases hstat' with h | h | h | h <;> simp [h]

/-- Closed instance of `retry_exhaustion_spec`: a GET whose budget of one
retry is exhausted by a 503 then a 500; the surfaced error is the 500. -/
theorem retry_exhaustion_spec_witness :
    ∃ (last : HResp) (e : AsaasAPIError),
      ([⟨503, Content.empty⟩, ⟨500, Content.empty⟩] : List HResp).getLast? =
        some last ∧
      requestOutcome "GET" 1 [⟨503, Content.empty⟩, ⟨500, Content.empty⟩] =
        some (Except.error e) ∧
      e.status_code = some last.status ∧
      e.kind = ErrKind.api ∧
      e.errors = subErrorsOf (parseBody last.content) := by
  refine retry_exhaustion_spec "GET" 1
    [⟨503, Content.empty⟩, ⟨500, Content.empty⟩] (by decide) ?_ rfl
  intro r hr
  simp only [List.mem_cons, List.not_mem_nil, or_false] at hr
  rcases hr with rfl | rfl <;> decide

theorem dictLookup_dictSet_self (d : List (String × JVal)) (k : String)
    (v : JVal) : dictLookup (dictSet d k v) k = some v := by
  induction d with
  | nil => simp [dictSet, dictLookup]
  | cons kv rest ih =>
    by_cases h : kv.1 = k
    · simp [dictSet, h, dictLookup]
    · simp [dictSet, h, dictLookup, ih]

theorem dictLookup_dictSet_other (d : List (String × JVal)) (k k2 : String)
    (v : JVal) (h : k2 ≠ k) :
    dictLookup (dictSet d k v) k2 = dictLookup d k2 := by
  induction d with
  | nil =>
    simp only [dictSet, dictLookup]
    rw [if_neg (fun hh => h hh.symm)]
  | cons kv rest ih =>
    by_cases hh : kv.1 = k
    · simp only [dictSet, hh, if_pos]
      simp only [dictLookup]
      rw [if_neg (fun h2 => h h2.symm), if_neg (by rw [hh]; exact fun h2 => h h2.symm)]
    · simp only [dictSet, hh, if_false, ite_false]
      simp only [dictLookup, ih]

theorem yieldFromPage_none (xs : List JVal) (y : Int) :
    yieldFromPage none xs y = (xs, y + xs.length, false) := by
  induction xs generalizing y with
  | nil => simp [yieldFromPage]
  | cons x xs ih =>
    simp [yieldFromPage, reachedMax, ih (y + 1)]
    omega

theorem paginateAux_cons (max_items : Option Int)
    (base : List (String × JVal)) (limit : Int) (raw : RawPage)
    (rest : List RawPage) (offset yielded : Int) :
    paginateAux max_items base limit (raw :: rest) offset yielded =
      (let page := PaginatedResponse.ofRaw raw
       let out := yieldFromPage max_items page.data yielded
       if out.2.2 then ⟨out.1, [pageParams base offset limit]⟩
       else if page.has_more then
         let next :=
           paginateAux max_items base limit rest (offset + page.limit) out.2.1
         ⟨out.1 ++ next.items, pageParams base offset limit :: next.requests⟩
       else ⟨out.1, [pageParams base offset limit]⟩) := rfl

theorem paginateAux_requests_shape (max_items : Option Int)
    (base : List (String × JVal)) (limit : Int) :
    ∀ (t : List RawPage) (offset yielded : Int)
      (req : List (String × JVal)),
      req ∈ (paginateAux max_items base limit t offset yielded).requests →
      ∃ o : Int, req = pageParams base o limit := by
  intro t
  induction t with
  | nil =>
    intro offset yielded req h
    simp [paginateAux] at h
  | cons raw rest ih =>
    intro offset yielded req h
    rw [paginateAux_cons] at h
    by_cases h1 :
        (yieldFromPage max_items (PaginatedResponse.ofRaw raw).data yielded).2.2
    · simp only [h1, if_true, List.mem_singleton] at h
      exact ⟨offset, h⟩
    · by_cases h2 : (PaginatedResponse.ofRaw raw).has_more
      · simp only [h1, h2, if_true, Bool.false_eq_true, if_false,
          List.mem_cons] at h
        rcases h with h | h
        · exact ⟨offset, h⟩
        · exact ih _ _ req h
      · simp only [h1, h2, Bool.false_eq_true, if_false,
          List.mem_singleton] at h
        exact ⟨offset, h⟩

theorem paginateAux_requests_cons (max_items : Option Int)
    (base : List (String × JVal)) (limit : Int) (raw : RawPage)
    (rest : List RawPage) (offset yielded : Int) :
    ∃ reqs,
      (paginateAux max_items base limit (raw :: rest) offset yielded).requests =
        pageParams base offset limit :: reqs := by
  rw [paginateAux_cons]
  by_cases h1 :
      (yieldFromPage max_items (PaginatedResponse.ofRaw raw).data yielded).2.2
  · exact ⟨[], by simp [h1]⟩
  · by_cases h2 : (PaginatedResponse.ofRaw raw).has_more
    · refine ⟨(paginateAux max_items base limit rest
        (offset + (PaginatedResponse.ofRaw raw).limit)
        (yieldFromPage max_items
          (PaginatedResponse.ofRaw raw).data yielded).2.1).requests, ?_⟩
      simp [h1, h2]
    · exact ⟨[], by simp [h1, h2]⟩

/-- C1: with no item cap, iteration starts at offset 0, yields each
page's items in page-then-within-page order, terminates exactly when the
page says `has_more = false` (whatever `total_count` says, which is
quantified freely here), and otherwise advances the offset by the page's
own returned `limit` field; on the two-page example it yields exactly 3
items and issues exactly 2 page requests, the second at offset 2. -/
theorem paginate_iteration_spec :
    (∀ (raw : RawPage) (rest : List RawPage)
       (params : Option (List (String × JVal))) (limit : Int),
      ∃ req reqs,
        (paginate (raw :: rest) params limit none).requests = req :: reqs ∧
        dictLookup req "offset" = some (JVal.num 0) ∧
        dictLookup req "limit" = some (JVal.num limit)) ∧
    (∀ (base : List (String × JVal)) (limit : Int) (raw : RawPage)
       (rest : List RawPage) (offset yielded : Int),
      (PaginatedResponse.ofRaw raw).has_more = false →
      paginateAux none base limit (raw :: rest) offset yielded =
        ⟨(PaginatedResponse.ofRaw raw).data,
          [pageParams base offset limit]⟩) ∧
    (∀ (base : List (String × JVal)) (limit : Int) (raw : RawPage)
       (rest : List RawPage) (offset yielded : Int),
      (PaginatedResponse.ofRaw raw).has_more = true →
      paginateAux none base limit (raw :: rest) offset yielded =
        ⟨(PaginatedResponse.ofRaw raw).data ++
            (paginateAux none base limit rest
              (offset + (PaginatedResponse.ofRaw raw).limit)
              (yielded + ((PaginatedResponse.ofRaw raw).data.length : Int))).items,
          pageParams base offset limit ::
            (paginateAux none base limit rest
              (offset + (PaginatedResponse.ofRaw raw).limit)
              (yielded + ((PaginatedResponse.ofRaw raw).data.length : Int))).requests⟩) ∧
    (paginate
        [⟨some true, some 3, some 2, some 0,
          some [JVal.str "a", JVal.str "b"]⟩,
         ⟨some false, some 3, some 2, some 2, some [JVal.str "c"]⟩]
        none 2 none).items =
      [JVal.str "a", JVal.str "b", JVal.str "c"] ∧
    (paginate
        [⟨some true, some 3, some 2, some 0,
          some [JVal.str "a", JVal.str "b"]⟩,
         ⟨some false, some 3, some 2, some 2, some [JVal.str "c"]⟩]
        none 2 none).requests =
      [[("offset", JVal.num 0), ("limit", JVal.num 2)],
       [("offset", JVal.num 2), ("limit", JVal.num 2)]] := by
  refine ⟨?_, ?_, ?_, rfl, rfl⟩
  · intro raw rest params limit
    obtain ⟨reqs, hreq⟩ :=
      paginateAux_requests_cons none (params.getD []) limit raw rest 0 0
    refine ⟨pageParams (params.getD []) 0 limit, reqs, hreq, ?_, ?_⟩
    · rw [pageParams, dictLookup_dictSet_other _ _ _ _ (by decide)]
      exact dictLookup_dictSet_self _ _ _
    · exact dictLookup_dictSet_self _ _ _
  · intro base limit raw rest offset yielded hfalse
    rw [paginateAux_cons]
    simp [yieldFromPage_none, hfalse]
  · intro base limit raw rest offset yielded htrue
    rw [paginateAux_cons]
    simp [yieldFromPage_none, htrue]

/-- Closed instances of `paginate_iteration_spec`: the stop step on a
`has_more = false` page and the continue step on a `has_more = true`
page whose returned limit (2) differs from the requested page size (100),
advancing the next offset by 2. -/
theorem paginate_iteration_spec_witness :
    paginateAux none [] 100
        [⟨some false, some 1, some 2, some 0, some [JVal.str "z"]⟩] 5 0 =
      ⟨[JVal.str "z"], [pageParams [] 5 100]⟩ ∧
    paginateAux none [] 100
        [⟨some true, some 1, some 2, some 0, some [JVal.str "z"]⟩] 5 0 =
      ⟨[JVal.str "z"] ++ (paginateAux none [] 100 [] (5 + 2) (0 + 1)).items,
        pageParams [] 5 100 ::
          (paginateAux none [] 100 [] (5 + 2) (0 + 1)).requests⟩ := by
  constructor
  · exact paginate_iteration_spec.2.1 [] 100
      ⟨some false, some 1, some 2, some 0, some [JVal.str "z"]⟩ [] 5 0 rfl
  · exact paginate_iteration_spec.2.2.1 [] 100
      ⟨some true, some 1, some 2, some 0, some [JVal.str "z"]⟩ [] 5 0 rfl

/-- C10: the caller's params dict is unchanged after a full run, and each
page request is a fresh merge of the caller's params with the paginator's
own offset and limit — which override any caller-supplied "offset" or
"limit" key, all other keys passing through unchanged. -/
theorem paginate_frame_spec (t : List RawPage)
    (params : List (String × JVal)) (limit : Int)
    (max_items : Option Int) :
    (paginate t (some params) limit max_items).final_params = some params ∧
    (∀ req ∈ (paginate t (some params) limit max_items).requests,
      ∃ o : Int,
        req = pageParams params o limit ∧
        dictLookup req "offset" = some (JVal.num o) ∧
        dictLookup req "limit" = some (JVal.num limit) ∧
        ∀ k, k ≠ "offset" → k ≠ "limit" →
          dictLookup req k = dictLookup params k) := by
  refine ⟨rfl, ?_⟩
  intro req hmem
  obtain ⟨o, rfl⟩ :=
    paginateAux_requests_shape max_items params limit t 0 0 req hmem
  refine ⟨o, rfl, ?_, ?_, ?_⟩
  · rw [pageParams, dictLookup_dictSet_other _ _ _ _ (by decide)]
    exact dictLookup_dictSet_self _ _ _
  · exact dictLookup_dictSet_self _ _ _
  · intro k hk1 hk2
    rw [pageParams, dictLookup_dictSet_other _ _ _ _ hk2,
      dictLookup_dictSet_other _ _ _ _ hk1]

/-- Closed instance of `paginate_frame_spec`: a caller dict carrying its
own "offset" is returned unchanged, while the outgoing request overrides
that offset with the paginator's 0 and passes "q" through. -/
theorem paginate_frame_spec_witness :
    (paginate [⟨some false, some 0, some 5, some 0, some []⟩]
        (some [("offset", JVal.num 999), ("q", JVal.str "x")]) 5
        none).final_params =
      some [("offset", JVal.num 999), ("q", JVal.str "x")] ∧
    ∃ o : Int,
      ([("offset", JVal.num 0), ("q", JVal.str "x"), ("limit", JVal.num 5)] :
          List (String × JVal)) =
        pageParams [("offset", JVal.num 999), ("q", JVal.str "x")] o 5 ∧
      dictLookup [("offset", JVal.num 0), ("q", JVal.str "x"),
          ("limit", JVal.num 5)] "offset" = some (JVal.num o) ∧
      dictLookup [("offset", JVal.num 0), ("q", JVal.str "x"),
          ("limit", JVal.num 5)] "limit" = some (JVal.num 5) ∧
      ∀ k, k ≠ "offset" → k ≠ "limit" →
        dictLookup [("offset", JVal.num 0), ("q", JVal.str "x"),
            ("limit", JVal.num 5)] k =
          dictLookup [("offset", JVal.num 999), ("q", JVal.str "x")] k := by
  constructor
  · exact (paginate_frame_spec
      [⟨some false, some 0, some 5, some 0, some []⟩]
      [("offset", JVal.num 999), ("q", JVal.str "x")] 5 none).1
  · refine (paginate_frame_spec
      [⟨some false, some 0, some 5, some 0, some []⟩]
      [("offset", JVal.num 999), ("q", JVal.str "x")] 5 none).2
      [("offset", JVal.num 0), ("q", JVal.str "x"), ("limit", JVal.num 5)] ?_
    rw [show (paginate [⟨some false, some 0, some 5, some 0, some []⟩]
        (some [("offset", JVal.num 999), ("q", JVal.str "x")]) 5
        none).requests =
      [[("offset", JVal.num 0), ("q", JVal.str "x"), ("limit", JVal.num 5)]]
      from rfl]
    exact List.mem_singleton.mpr rfl

/-- C8: the single-page fetch issues one GET whose query dict is the base
params with offset and limit merged in (overriding, other keys unchanged)
and wraps the JSON body into the page structure, defaulting
`has_more = false`, `total_count = 0`, `limit = 10`, `offset = 0`,
`data = []` for omitted fields. -/
theorem fetch_page_spec (raw : RawPage) (base : List (String × JVal))
    (offset limit : Int) :
    (fetch_page raw base offset limit).1 = pageParams base offset limit ∧
    dictLookup (fetch_page raw base offset limit).1 "offset" =
      some (JVal.num offset) ∧
    dictLookup (fetch_page raw base offset limit).1 "limit" =
      some (JVal.num limit) ∧
    (∀ k, k ≠ "offset" → k ≠ "limit" →
      dictLookup (fetch_page raw base offset limit).1 k = dictLookup base k) ∧
    (fetch_page raw base offset limit).2 = PaginatedResponse.ofRaw raw ∧
    (raw.hasMore = none → (fetch_page raw base offset limit).2.has_more = false) ∧
    (raw.totalCount = none →
      (fetch_page raw base offset limit).2.total_count = 0) ∧
    (raw.limit = none → (fetch_page raw base offset limit).2.limit = 10) ∧
    (raw.offset = none → (fetch_page raw base offset limit).2.offset = 0) ∧
    (raw.data = none → (fetch_page raw base offset limit).2.data = []) ∧
    PaginatedResponse.ofRaw ⟨none, none, none, none, none⟩ =
      ⟨false, 0, 10, 0, []⟩ := by
  refine ⟨rfl, ?_, ?_, ?_, rfl, ?_, ?_, ?_, ?_, ?_, rfl⟩
  · rw [show (fetch_page raw base offset limit).1 =
        pageParams base offset limit from rfl,
      pageParams, dictLookup_dictSet_other _ _ _ _ (by decide)]
    exact dictLookup_dictSet_self _ _ _
  · exact dictLookup_dictSet_self _ _ _
  · intro k hk1 hk2
    rw [show (fetch_page raw base offset limit).1 =
        pageParams base offset limit from rfl,
      pageParams, dictLookup_dictSet_other _ _ _ _ hk2,
      dictLookup_dictSet_other _ _ _ _ hk1]
  · intro h
    simp [fetch_page, PaginatedResponse.ofRaw, h]
  · intro h
    simp [fetch_page, PaginatedResponse.ofRaw, h]
  · intro h
    simp [fetch_page, PaginatedResponse.ofRaw, h]
  · intro h
    simp [fetch_page, PaginatedResponse.ofRaw, h]
  · intro h
    simp [fetch_page, PaginatedResponse.ofRaw, h]

/-- Closed instance of `fetch_page_spec` on a fully omitted body: the
"q" param passes through and every page field takes its default. -/
theorem fetch_page_spec_witness :
    dictLookup (fetch_page ⟨none, none, none, none, none⟩
        [("q", JVal.str "1")] 7 3).1 "q" =
      dictLookup [("q", JVal.str "1")] "q" ∧
    (fetch_page ⟨none, none, none, none, none⟩
        [("q", JVal.str "1")] 7 3).2.has_more = false ∧
    (fetch_page ⟨none, none, none, none, none⟩
        [("q", JVal.str "1")] 7 3).2.limit = 10 := by
  refine ⟨?_, ?_, ?_⟩
  · exact (fetch_page_spec ⟨none, none, none, none, none⟩
      [("q", JVal.str "1")] 7 3).2.2.2.1 "q" (by decide) (by decide)
  · exact (fetch_page_spec ⟨none, none, none, none, none⟩
      [("q", JVal.str "1")] 7 3).2.2.2.2.2.1 rfl
  · exact (fetch_page_spec ⟨none, none, none, none, none⟩
      [("q", JVal.str "1")] 7 3).2.2.2.2.2.2.2.1 rfl

/-- C2 (failing input): `paginate` checks the `max_items` cutoff only
after a yield, so with `max_items = 0` against a one-item page it still
yields one item instead of stopping the moment 0 items have been yielded;
at the spec's own instance (`max_items = 3`, 5-item first page) the code
does yield exactly 3 items with a single page request. -/
theorem paginate_max_items_zero_failing :
    (paginate [⟨some true, some 10, some 5, some 0,
        some [JVal.str "a", JVal.str "b", JVal.str "c", JVal.str "d",
          JVal.str "e"]⟩] none 5 (some 3)).items =
      [JVal.str "a", JVal.str "b", JVal.str "c"] ∧
    (paginate [⟨some true, some 10, some 5, some 0,
        some [JVal.str "a", JVal.str "b", JVal.str "c", JVal.str "d",
          JVal.str "e"]⟩] none 5 (some 3)).requests.length = 1 ∧
    (paginate [⟨some false, some 1, some 10, some 0, some [JVal.str "a"]⟩]
        none 10 (some 0)).items = [JVal.str "a"] ∧
    (paginate [⟨some false, some 1, some 10, some 0, some [JVal.str "a"]⟩]
        none 10 (some 0)).items.length ≠ 0 := by
  exact ⟨rfl, rfl, rfl, by decide⟩
